import Mathlib

/-!
Shallow embedding of the nodorum backend's user service, follower/vote
entities and request-context lookups, translated from the TypeScript
source (`UserService`, `CommentVoteEntity`, `FollowerEntity`,
`RequestContext`), together with proofs about the behaviour the
specification describes.

Rows of the relational store are Lean structures; each repository table
is a `List` of rows; TypeORM's `findOne`/`save`/`delete` become explicit
list operations; thrown Nest exceptions become an error type returned in
`Except`; stateful service methods take the store and return the new
store together with the result.
-/

/-- The error taxonomy of the service layer: the Nest exception classes
thrown by `UserService` (`BadRequestException(msg, desc)`,
`NotFoundException(msg)`, `UnauthorizedException(msg)`,
`InternalServerErrorException(msg?)`). -/
inductive ServiceError where
  | badRequest (message description : String)
  | notFound (message : String)
  | unauthorized (message : String)
  | internalError (message : String)
deriving Repr, DecidableEq

/-- A row of the `users` table (`UserEntity`): id, credentials, optional
profile fields, and the soft-delete tombstone `deletedAt` (a timestamp,
modelled as a `Nat`; `none` means the column is NULL). -/
structure UserEntity where
  id : Nat
  username : String
  email : String
  password : String
  displayName : Option String
  profileImage : Option String
  bio : Option String
  deletedAt : Option Nat
deriving Repr, DecidableEq

/-- A row of the `followers` table (`FollowerEntity`): the edge means
"user `followerId` follows user `userId`". -/
structure FollowerEntity where
  id : Nat
  userId : Nat
  followerId : Nat
deriving Repr, DecidableEq

/-- A row of the `commentvotes` table (`CommentVoteEntity`):
`direction` is an integer column; the row links a voter (`userId`)
to a target comment (`commentId`). -/
structure CommentVoteEntity where
  id : Nat
  direction : Int
  userId : Nat
  commentId : Nat
deriving Repr, DecidableEq

/-- The relational store visible to `UserService`: the `users` and
`followers` tables, plus the auto-increment counters the store uses to
assign primary keys on insert. -/
structure Store where
  users : List UserEntity
  followers : List FollowerEntity
  nextUserId : Nat
  nextFollowerId : Nat
deriving Repr, DecidableEq

/-- The slice of `ConfigService` the service reads:
`configService.get('aws.s3BucketName')`. -/
structure Config where
  s3BucketName : Option String
deriving Repr, DecidableEq

/-- `RegisterUserDto`: required `username`, `email`, `password`; the
optional fields are absent (`none`) or a string (possibly empty, which
JavaScript treats as falsy). -/
structure RegisterUserDto where
  username : String
  email : String
  password : String
  displayName : Option String
  profileImage : Option String
  bio : Option String
deriving Repr, DecidableEq

/-- `UpdateUserDto`: the three optional profile fields. -/
structure UpdateUserDto where
  displayName : Option String
  profileImage : Option String
  bio : Option String
deriving Repr, DecidableEq

/-- JavaScript truthiness of an optional string field: `undefined` and
the empty string are falsy, every other string is truthy. -/
def truthy : Option String → Bool
  | none => false
  | some s => !s.isEmpty

/-- Modelled from the spec: `argon2.hash` is an external cryptographic
primitive (credential hashing is a declared non-goal); the model only
needs it to be a deterministic function of the password. -/
def argonHash (password : String) : String :=
  "argon2$" ++ password

/-- One character class of the regex escape `\w`: ASCII letters, digits
and underscore. -/
def isWordChar (c : Char) : Bool :=
  c.isAlphanum || c == '_'

/-- Consume a literal character sequence from the front of `cs`,
returning the remainder, or `none` if `cs` does not start with it. -/
def dropLit : List Char → List Char → Option (List Char)
  | [], cs => some cs
  | _ :: _, [] => none
  | l :: ls, c :: cs => if c == l then dropLit ls cs else none

/-- Split off the longest run of `\w` characters from the front,
returning its length and the remainder. -/
def spanWord : List Char → Nat × List Char
  | [] => (0, [])
  | c :: cs =>
    if isWordChar c then
      let r := spanWord cs
      (r.1 + 1, r.2)
    else (0, c :: cs)

namespace UserService

/-- The profile-image payload transformation of `uploadProfileImage`:
`profileImage.replace(/^body:image\/\w+;base64,/, '')` — if the string
starts with `body:image/`, then one or more `\w` characters, then
`;base64,`, that whole match is removed; otherwise the string is
returned unchanged. -/
def stripMime (s : String) : String :=
  match dropLit ("body:image/".toList) s.toList with
  | none => s
  | some rest =>
    let r := spanWord rest
    if r.1 == 0 then s
    else
      match dropLit (";base64,".toList) r.2 with
      | none => s
      | some rest2 => String.mk rest2

/-- The parameter object `uploadProfileImage` hands to
`awsS3Service.upload`. `body` holds the text passed to the external
base64 decoder (`Buffer.from(..., 'base64')`, a delegated library
call). -/
structure S3UploadParams where
  bucket : String
  key : String
  body : String
  acl : String
  contentEncoding : String
  contentType : String
deriving Repr, DecidableEq

/-- Modelled from the spec: `AwsS3Service.upload` is not under src/;
per the spec the upload stores the object and "returns the storage
key". -/
def awsS3Upload (params : S3UploadParams) : String :=
  params.key

/-- `UserService.uploadProfileImage(profileImage, username, opts)`:
strips the MIME-prefix regex from the payload, fails with an
internal error when `aws.s3BucketName` is not configured, otherwise
uploads under `pictures/user/<username>.png` with public-read ACL and
returns the key (paired here with the upload parameters so that what
was sent to storage can be inspected). -/
def uploadProfileImage (cfg : Config) (profileImage username : String) :
    Except ServiceError (String × S3UploadParams) :=
  let base64 := stripMime profileImage
  match cfg.s3BucketName with
  | none => .error (.internalError "")
  | some bucketName =>
    let params : S3UploadParams :=
      { bucket := bucketName
        key := "pictures/user/" ++ username ++ ".png"
        body := base64
        acl := "public-read"
        contentEncoding := "base64"
        contentType := "image/png" }
    .ok (awsS3Upload params, params)

/-- TypeORM `save` on an entity that already has a primary key:
update the row(s) with that id in place. -/
def saveUser (st : Store) (u : UserEntity) : Store :=
  { st with users := st.users.map (fun v => if v.id == u.id then u else v) }

/-- The row-building steps of `UserService.register`: the new user
carries the requested username and email, the hashed password, and
each truthy optional field; a truthy profile image is uploaded first
and its storage key stored, and an upload failure propagates (nothing
will be saved). -/
def registerRow (cfg : Config) (dto : RegisterUserDto) : Except ServiceError UserEntity :=
  let u0 : UserEntity :=
    { id := 0, username := dto.username, email := dto.email
      password := argonHash dto.password
      displayName := none, profileImage := none, bio := none, deletedAt := none }
  let u1 := if truthy dto.displayName then { u0 with displayName := dto.displayName } else u0
  if truthy dto.profileImage then
    match uploadProfileImage cfg (dto.profileImage.getD "") dto.username with
    | .error e => .error e
    | .ok r =>
      let u2 := { u1 with profileImage := some r.1 }
      .ok (if truthy dto.bio then { u2 with bio := dto.bio } else u2)
  else
    .ok (if truthy dto.bio then { u1 with bio := dto.bio } else u1)

/-- `UserService.register`: rejects when any stored row (tombstoned or
not — the query has no `deletedAt` filter) already has the requested
username or email; otherwise builds the new user via `registerRow` and
inserts exactly one new row under the next auto-increment primary
key. -/
def register (cfg : Config) (st : Store) (dto : RegisterUserDto) :
    Store × Except ServiceError UserEntity :=
  match st.users.find? (fun u => u.username == dto.username || u.email == dto.email) with
  | some _ => (st, .error (.badRequest "Email or Username is already taken" "Validation failed"))
  | none =>
    match registerRow cfg dto with
    | .error e => (st, .error e)
    | .ok row =>
      let saved := { row with id := st.nextUserId }
      ({ st with users := st.users ++ [saved], nextUserId := st.nextUserId + 1 }, .ok saved)

/-- `UserService.findOne(id)`: the first non-tombstoned row with this
id, or NotFound. -/
def findOne (st : Store) (id : Nat) : Except ServiceError UserEntity :=
  match st.users.find? (fun u => u.id == id && u.deletedAt.isNone) with
  | some u => .ok u
  | none => .error (.notFound "User not found")

/-- `UserService.findOneByEmail(email)`: the first non-tombstoned row
with this email, or NotFound. -/
def findOneByEmail (st : Store) (email : String) : Except ServiceError UserEntity :=
  match st.users.find? (fun u => u.email == email && u.deletedAt.isNone) with
  | some u => .ok u
  | none => .error (.notFound "User not found")

/-- `UserService.findOneByUsername(username)`: the first non-tombstoned
row with this username, or NotFound. -/
def findOneByUsername (st : Store) (username : String) : Except ServiceError UserEntity :=
  match st.users.find? (fun u => u.username == username && u.deletedAt.isNone) with
  | some u => .ok u
  | none => .error (.notFound "User not found")

/-- The three conditional field assignments of `UserService.update`:
each truthy dto field overwrites the corresponding column of the found
row. -/
def applyUpdate (user : UserEntity) (dto : UpdateUserDto) : UserEntity :=
  let u1 := if truthy dto.displayName then { user with displayName := dto.displayName } else user
  let u2 := if truthy dto.profileImage then { u1 with profileImage := dto.profileImage } else u1
  if truthy dto.bio then { u2 with bio := dto.bio } else u2

/-- `UserService.update(id, dto)`: requires a non-tombstoned row with
this id, then overwrites each of the three optional fields that is
truthy in the dto and saves the row. -/
def update (st : Store) (id : Nat) (dto : UpdateUserDto) :
    Store × Except ServiceError UserEntity :=
  match st.users.find? (fun u => u.id == id && u.deletedAt.isNone) with
  | none => (st, .error (.notFound "User not found"))
  | some user =>
    let u3 := applyUpdate user dto
    (saveUser st u3, .ok u3)

/-- `UserService.delete(id)`: looks the row up WITHOUT a tombstone
filter, sets `deletedAt` to the current time, and then — exactly as the
source does — assigns `displayName` twice (first `'[DELETED]'`, then
the blank-picture sentinel) while `username` and `email` get
`'[DELETED]'` and `profileImage` is never assigned. -/
def delete (st : Store) (id : Nat) (now : Nat) :
    Store × Except ServiceError String :=
  match st.users.find? (fun u => u.id == id) with
  | none => (st, .error (.notFound "User not found"))
  | some user =>
    let user1 := { user with deletedAt := some now }
    let user2 := { user1 with displayName := some "[DELETED]" }
    let user3 := { user2 with username := "[DELETED]" }
    let user4 := { user3 with email := "[DELETED]" }
    let user5 := { user4 with displayName := some "pictures/blank-profile-picture-S4P3RS3CR3T" }
    (saveUser st user5, .ok "User successfully removed")

/-- `UserService.followAction(userId, userToFollowId)`: both principals
must resolve non-tombstoned, else NotFound (with no state change); if
the follow edge `(userToFollowId, userId)` exists it is deleted — the
repository reports how many rows the delete by primary key affected,
and any count other than one raises the internal "Database error" (the
deletion itself has already executed) — otherwise a new edge is
inserted. -/
def followAction (st : Store) (userId userToFollowId : Nat) :
    Store × Except ServiceError String :=
  match st.users.find? (fun u => u.id == userId && u.deletedAt.isNone) with
  | none => (st, .error (.notFound "User not found"))
  | some _ =>
    match st.users.find? (fun u => u.id == userToFollowId && u.deletedAt.isNone) with
    | none => (st, .error (.notFound "User who you are trying to follow does not exist"))
    | some _ =>
      match st.followers.find? (fun f => f.userId == userToFollowId && f.followerId == userId) with
      | some isFollowing =>
        let affected := (st.followers.filter (fun f => f.id == isFollowing.id)).length
        let st' := { st with followers := st.followers.filter (fun f => f.id != isFollowing.id) }
        if affected != 1 then (st', .error (.internalError "Database error"))
        else (st', .ok "User unfollowed")
      | none =>
        let follower : FollowerEntity :=
          { id := st.nextFollowerId, userId := userToFollowId, followerId := userId }
        ({ st with followers := st.followers ++ [follower],
                   nextFollowerId := st.nextFollowerId + 1 },
         .ok "User followed")

end UserService

/-- Modelled from the spec: the comment/post vote service is not under
src/ (only `CommentVoteEntity` is); per the spec it "must enforce
at-most-one row per (voter, target) and overwrite direction on repeat
votes rather than accumulate". -/
def castCommentVote (votes : List CommentVoteEntity) (nextId : Nat)
    (userId commentId : Nat) (direction : Int) :
    List CommentVoteEntity × Nat :=
  match votes.find? (fun v => v.userId == userId && v.commentId == commentId) with
  | some v =>
    (votes.map (fun w => if w.id == v.id then { w with direction := direction } else w), nextId)
  | none =>
    (votes ++ [{ id := nextId, direction := direction, userId := userId, commentId := commentId }],
     nextId + 1)

/-- The rows a voter has on a given comment. -/
def voteRows (votes : List CommentVoteEntity) (userId commentId : Nat) :
    List CommentVoteEntity :=
  votes.filter (fun v => v.userId == userId && v.commentId == commentId)

/-- The request object as `RequestContext` sees it: only the
authenticated-user field `request.user` matters (absent when no
principal was attached upstream). -/
structure HttpRequest where
  user : Option UserEntity
deriving DecidableEq

namespace RequestContext

/-- A context record: a random correlation id plus the in-flight
request (the response object plays no role in the lookups). -/
structure Rec where
  id : Nat
  request : HttpRequest
deriving DecidableEq

/-- The continuation-local-storage namespace as the lookups observe it:
whether it is `active`, and the value stored under the
`RequestContext.name` key (possibly nothing was ever set). -/
structure ClsNamespace where
  active : Bool
  stored : Option Rec
deriving DecidableEq

/-- What `cls.getNamespace(RequestContext.nsid)` yields at the moment
of a lookup: the namespace, or none. -/
structure ClsState where
  ns : Option ClsNamespace
deriving DecidableEq

/-- `RequestContext.currentRequestContext()`: if the namespace exists
and is active, return whatever is stored under the key (possibly
nothing); otherwise null. -/
def currentRequestContext (s : ClsState) : Option Rec :=
  match s.ns with
  | some session => if session.active then session.stored else none
  | none => none

/-- `RequestContext.currentRequest()`: project the request out of the
current context, or null. -/
def currentRequest (s : ClsState) : Option HttpRequest :=
  match currentRequestContext s with
  | some rc => some rc.request
  | none => none

/-- `RequestContext.currentUser()`: project `request.user` out of the
current context; null when no context is bound or the field is
absent. -/
def currentUser (s : ClsState) : Option UserEntity :=
  match currentRequestContext s with
  | some rc =>
    match rc.request.user with
    | some u => some u
    | none => none
  | none => none

end RequestContext

/-- The anonymized row `UserService.delete` actually saves, written as a
single update of the found row (the net effect of its five sequential
field assignments). -/
def tombstone (u : UserEntity) (now : Nat) : UserEntity :=
  { u with username := "[DELETED]", email := "[DELETED]",
           displayName := some "pictures/blank-profile-picture-S4P3RS3CR3T",
           deletedAt := some now }

/-- A two-user store (alice and bob, nobody deleted, no follow edges)
used to instantiate the theorems on concrete inputs. -/
def stAB : Store :=
  { users := [
      { id := 1, username := "alice", email := "a@x.com", password := "h1",
        displayName := some "Alice", profileImage := some "avatar.png",
        bio := none, deletedAt := none },
      { id := 2, username := "bob", email := "b@x.com", password := "h2",
        displayName := none, profileImage := none, bio := none, deletedAt := none }],
    followers := [], nextUserId := 3, nextFollowerId := 1 }

/-- A store whose followers table holds two rows sharing a primary key,
so that a delete by that key affects two rows. -/
def stDup : Store :=
  { users := stAB.users, followers := [
      { id := 5, userId := 1, followerId := 2 },
      { id := 5, userId := 1, followerId := 9 }],
    nextUserId := 3, nextFollowerId := 6 }

/-- The empty store. -/
def stEmpty : Store :=
  { users := [], followers := [], nextUserId := 1, nextFollowerId := 1 }

/-- C3: deletion is a soft delete — it returns the success message, keeps
the row (same id), sets the tombstone `deletedAt` and anonymizes
`username` and `email`; but, contrary to the claim, `profileImage` is
NOT overwritten (it keeps `avatar.png`): the blank-picture sentinel is
assigned to `displayName` a second time instead, because the source
assigns `user.displayName` twice and never `user.profileImage`. -/
theorem c3_delete_eval :
    UserService.delete stAB 1 100 =
      ({ users := [
          { id := 1, username := "[DELETED]", email := "[DELETED]", password := "h1",
            displayName := some "pictures/blank-profile-picture-S4P3RS3CR3T",
            profileImage := some "avatar.png", bio := none, deletedAt := some 100 },
          { id := 2, username := "bob", email := "b@x.com", password := "h2",
            displayName := none, profileImage := none, bio := none, deletedAt := none }],
         followers := [], nextUserId := 3, nextFollowerId := 1 },
       Except.ok "User successfully removed") := by
  rfl

/-- C4: evaluation of the profile-image upload. The regex prefix the
source strips is `body:image/\w+;base64,`, so a standard base64
data-URI payload (`data:image/png;base64,...`) is NOT stripped — the
whole URI text is handed to the base64 decoder as the stored body —
while the key `pictures/user/<username>.png`, the public-read ACL and
the missing-bucket internal error behave as claimed. -/
theorem c4_upload_eval :
    UserService.stripMime "data:image/png;base64,AAAA" = "data:image/png;base64,AAAA" ∧
    UserService.stripMime "body:image/png;base64,AAAA" = "AAAA" ∧
    UserService.uploadProfileImage { s3BucketName := none } "data:image/png;base64,AAAA" "alice"
      = Except.error (.internalError "") ∧
    UserService.uploadProfileImage { s3BucketName := some "bkt" } "data:image/png;base64,AAAA" "alice"
      = Except.ok ("pictures/user/alice.png",
          { bucket := "bkt", key := "pictures/user/alice.png",
            body := "data:image/png;base64,AAAA", acl := "public-read",
            contentEncoding := "base64", contentType := "image/png" }) := by
  refine ⟨rfl, rfl, rfl, rfl⟩

/-- C9: the context lookups are total functions into an explicit option:
when no namespace exists the context lookup returns none; whenever the
context lookup returns none so do `currentRequest` and `currentUser`;
and when a context is bound whose request carries no authenticated-user
field, `currentUser` still returns none. -/
theorem c9_lookups_total (s : RequestContext.ClsState) :
    (s.ns = none → RequestContext.currentRequestContext s = none) ∧
    (∀ sess, s.ns = some sess → sess.active = false →
      RequestContext.currentRequestContext s = none) ∧
    (RequestContext.currentRequestContext s = none →
      RequestContext.currentRequest s = none ∧ RequestContext.currentUser s = none) ∧
    (∀ rc, RequestContext.currentRequestContext s = some rc → rc.request.user = none →
      RequestContext.currentUser s = none) := by
  refine ⟨?_, ?_, ?_, ?_⟩
  · intro h
    simp [RequestContext.currentRequestContext, h]
  · intro sess hs ha
    simp [RequestContext.currentRequestContext, hs, ha]
  · intro h
    exact ⟨by simp [RequestContext.currentRequest, h], by simp [RequestContext.currentUser, h]⟩
  · intro rc h hu
    simp [RequestContext.currentUser, h, hu]

/-- C9 witness: the lookups evaluated at a process-startup state (no
namespace) and at a bound context whose request has no user. -/
theorem c9_lookups_total_witness :
    RequestContext.currentRequestContext { ns := none } = none ∧
    RequestContext.currentRequest { ns := none } = none ∧
    RequestContext.currentUser { ns := none } = none ∧
    RequestContext.currentUser
      { ns := some { active := true, stored := some { id := 7, request := { user := none } } } } = none := by
  refine ⟨(c9_lookups_total { ns := none }).1 rfl,
          ((c9_lookups_total { ns := none }).2.2.1 rfl).1,
          ((c9_lookups_total { ns := none }).2.2.1 rfl).2,
          (c9_lookups_total _).2.2.2 { id := 7, request := { user := none } } rfl rfl⟩

/-- C1: for an actor and a target that both resolve to non-tombstoned
principals and have no follow edge `(target, actor)`, the first
`followAction` inserts exactly one edge and returns "User followed",
and an immediately repeated call deletes that edge and returns
"User unfollowed", restoring the original followers table — the toggle
is its own inverse (the hypothesis on `nextFollowerId` says the store's
auto-increment key is fresh, as a relational store guarantees). -/
theorem c1_follow_toggle (st : Store) (u t : Nat) (au tu : UserEntity)
    (hu : st.users.find? (fun v => v.id == u && v.deletedAt.isNone) = some au)
    (ht : st.users.find? (fun v => v.id == t && v.deletedAt.isNone) = some tu)
    (hedge : st.followers.find? (fun f => f.userId == t && f.followerId == u) = none)
    (hfresh : ∀ f ∈ st.followers, f.id ≠ st.nextFollowerId) :
    (UserService.followAction st u t).2 = Except.ok "User followed" ∧
    (UserService.followAction st u t).1.followers
      = st.followers ++ [{ id := st.nextFollowerId, userId := t, followerId := u }] ∧
    (UserService.followAction (UserService.followAction st u t).1 u t).2
      = Except.ok "User unfollowed" ∧
    (UserService.followAction (UserService.followAction st u t).1 u t).1.followers
      = st.followers := by
  have h1 : UserService.followAction st u t =
      ({ st with followers := st.followers ++ [{ id := st.nextFollowerId, userId := t, followerId := u }],
                 nextFollowerId := st.nextFollowerId + 1 }, Except.ok "User followed") := by
    simp only [UserService.followAction, hu, ht, hedge]
  have hedge1 : (st.followers ++ [({ id := st.nextFollowerId, userId := t, followerId := u } : FollowerEntity)]).find?
      (fun f => f.userId == t && f.followerId == u)
      = some { id := st.nextFollowerId, userId := t, followerId := u } := by
    rw [List.find?_append, hedge]
    simp [List.find?]
  have hfilnil : st.followers.filter (fun f => f.id == st.nextFollowerId) = [] :=
    List.filter_eq_nil_iff.mpr (fun f hf => by simpa using hfresh f hf)
  have hkeep : st.followers.filter (fun f => f.id != st.nextFollowerId) = st.followers :=
    List.filter_eq_self.mpr (fun f hf => by simpa using hfresh f hf)
  have h2 : UserService.followAction
      { st with followers := st.followers ++ [{ id := st.nextFollowerId, userId := t, followerId := u }],
                nextFollowerId := st.nextFollowerId + 1 } u t =
      ({ st with followers := st.followers,
                 nextFollowerId := st.nextFollowerId + 1 }, Except.ok "User unfollowed") := by
    simp only [UserService.followAction, hu, ht, hedge1]
    rw [List.filter_append, List.filter_append, hfilnil, hkeep]
    simp
  rw [h1]
  exact ⟨rfl, rfl, by rw [h2], by rw [h2]⟩

/-- C1 witness: in the two-user store, bob follows then unfollows alice;
the followers table returns to empty. -/
theorem c1_follow_toggle_witness :
    (UserService.followAction stAB 2 1).2 = Except.ok "User followed" ∧
    (UserService.followAction (UserService.followAction stAB 2 1).1 2 1).2
      = Except.ok "User unfollowed" ∧
    (UserService.followAction (UserService.followAction stAB 2 1).1 2 1).1.followers
      = stAB.followers := by
  have h := c1_follow_toggle stAB 2 1 _ _ rfl rfl rfl (by decide)
  exact ⟨h.1, h.2.2.1, h.2.2.2⟩

/-- C7: once `delete(id)` has succeeded on a principal whose original
email and username belong to no other row, `findOne(id)`,
`findOneByEmail(original email)` and `findOneByUsername(original
username)` all fail with NotFound (each lookup filters on
`deletedAt IS NULL`), while the followers table — the rows referencing
the principal's id — is untouched. -/
theorem c7_soft_delete_invisible (st : Store) (id now : Nat) (u : UserEntity)
    (hfind : st.users.find? (fun v => v.id == id) = some u)
    (hemail : ∀ v ∈ st.users, v.email = u.email → v.id = id)
    (husername : ∀ v ∈ st.users, v.username = u.username → v.id = id) :
    (UserService.delete st id now).2 = Except.ok "User successfully removed" ∧
    UserService.findOne (UserService.delete st id now).1 id
      = Except.error (.notFound "User not found") ∧
    UserService.findOneByEmail (UserService.delete st id now).1 u.email
      = Except.error (.notFound "User not found") ∧
    UserService.findOneByUsername (UserService.delete st id now).1 u.username
      = Except.error (.notFound "User not found") ∧
    (UserService.delete st id now).1.followers = st.followers := by
  have hid : u.id = id := by simpa using List.find?_some hfind
  have husers : (UserService.delete st id now).1.users
      = st.users.map (fun v => if v.id == u.id then tombstone u now else v) := by
    simp only [UserService.delete, hfind, UserService.saveUser, tombstone]
  have hn1 : ((UserService.delete st id now).1.users).find?
      (fun v => v.id == id && v.deletedAt.isNone) = none := by
    rw [husers]
    refine List.find?_eq_none.mpr ?_
    intro x hx
    rcases List.mem_map.mp hx with ⟨v, hv, rfl⟩
    by_cases hc : v.id = u.id
    · simp [hc, tombstone]
    · have hne : v.id ≠ id := fun h => hc (by rw [h, hid])
      simp [hc, hne]
  have hn2 : ((UserService.delete st id now).1.users).find?
      (fun v => v.email == u.email && v.deletedAt.isNone) = none := by
    rw [husers]
    refine List.find?_eq_none.mpr ?_
    intro x hx
    rcases List.mem_map.mp hx with ⟨v, hv, rfl⟩
    by_cases hc : v.id = u.id
    · simp [hc, tombstone]
    · have hne : v.id ≠ id := fun h => hc (by rw [h, hid])
      have hvem : v.email ≠ u.email := fun h => hne (hemail v hv h)
      simp [hc, hvem]
  have hn3 : ((UserService.delete st id now).1.users).find?
      (fun v => v.username == u.username && v.deletedAt.isNone) = none := by
    rw [husers]
    refine List.find?_eq_none.mpr ?_
    intro x hx
    rcases List.mem_map.mp hx with ⟨v, hv, rfl⟩
    by_cases hc : v.id = u.id
    · simp [hc, tombstone]
    · have hne : v.id ≠ id := fun h => hc (by rw [h, hid])
      have hvun : v.username ≠ u.username := fun h => hne (husername v hv h)
      simp [hc, hvun]
  refine ⟨?_, ?_, ?_, ?_, ?_⟩
  · simp only [UserService.delete, hfind]
  · simp [UserService.findOne, hn1]
  · simp [UserService.findOneByEmail, hn2]
  · simp [UserService.findOneByUsername, hn3]
  · simp only [UserService.delete, hfind, UserService.saveUser]

/-- C7 witness: deleting alice in the two-user store makes all three
lookups with her original identifiers fail with NotFound, and the
followers table is unchanged. -/
theorem c7_soft_delete_invisible_witness :
    (UserService.delete stAB 1 100).2 = Except.ok "User successfully removed" ∧
    UserService.findOne (UserService.delete stAB 1 100).1 1
      = Except.error (.notFound "User not found") ∧
    UserService.findOneByEmail (UserService.delete stAB 1 100).1 "a@x.com"
      = Except.error (.notFound "User not found") ∧
    UserService.findOneByUsername (UserService.delete stAB 1 100).1 "alice"
      = Except.error (.notFound "User not found") ∧
    (UserService.delete stAB 1 100).1.followers = stAB.followers := by
  have h := c7_soft_delete_invisible stAB 1 100
      { id := 1, username := "alice", email := "a@x.com", password := "h1",
        displayName := some "Alice", profileImage := some "avatar.png",
        bio := none, deletedAt := none }
      rfl (by decide) (by decide)
  exact h

/-- C8: `followAction` fails with NotFound — leaving the store exactly
as it was — whenever the actor, or the target, does not resolve to a
non-tombstoned principal; and when an existing follow edge is found but
deleting it by primary key affects a number of rows different from one,
it fails with the internal "Database error". -/
theorem c8_follow_failures (st : Store) (u t : Nat) :
    (st.users.find? (fun v => v.id == u && v.deletedAt.isNone) = none →
      UserService.followAction st u t = (st, Except.error (.notFound "User not found"))) ∧
    (∀ au, st.users.find? (fun v => v.id == u && v.deletedAt.isNone) = some au →
      st.users.find? (fun v => v.id == t && v.deletedAt.isNone) = none →
      UserService.followAction st u t
        = (st, Except.error (.notFound "User who you are trying to follow does not exist"))) ∧
    (∀ au tu f, st.users.find? (fun v => v.id == u && v.deletedAt.isNone) = some au →
      st.users.find? (fun v => v.id == t && v.deletedAt.isNone) = some tu →
      st.followers.find? (fun g => g.userId == t && g.followerId == u) = some f →
      (st.followers.filter (fun g => g.id == f.id)).length ≠ 1 →
      (UserService.followAction st u t).2 = Except.error (.internalError "Database error")) := by
  refine ⟨?_, ?_, ?_⟩
  · intro hu
    simp only [UserService.followAction, hu]
  · intro au hu ht
    simp only [UserService.followAction, hu, ht]
  · intro au tu f hu ht hf hlen
    have hb : ((st.followers.filter (fun g => g.id == f.id)).length != 1) = true := by
      simpa using hlen
    simp only [UserService.followAction, hu, ht, hf, hb, if_true]

/-- C8 witness: on the empty store the actor lookup fails; with only
alice and bob, following an absent id 3 fails with the target message;
and in the store whose followers table has two rows sharing primary key
5, the unfollow delete affects two rows and raises the internal
error. -/
theorem c8_follow_failures_witness :
    UserService.followAction stEmpty 1 2
      = (stEmpty, Except.error (.notFound "User not found")) ∧
    UserService.followAction stAB 2 3
      = (stAB, Except.error (.notFound "User who you are trying to follow does not exist")) ∧
    (UserService.followAction stDup 2 1).2
      = Except.error (.internalError "Database error") := by
  refine ⟨(c8_follow_failures stEmpty 1 2).1 rfl,
          (c8_follow_failures stAB 2 3).2.1 _ rfl rfl,
          (c8_follow_failures stDup 2 1).2.2 _ _ _ rfl rfl rfl (by decide)⟩

/-- A row whose primary key differs from the saved entity's key is still
in the table, unchanged, after `saveUser`. -/
theorem saveUser_keeps_other_rows (st : Store) (w v : UserEntity)
    (hv : v ∈ st.users) (hne : v.id ≠ w.id) : v ∈ (UserService.saveUser st w).users := by
  simp only [UserService.saveUser]
  refine List.mem_map.mpr ⟨v, hv, ?_⟩
  simp [hne]

/-- C10: `update(id, dto)` on an existing non-tombstoned principal
changes at most `displayName`, `profileImage` and `bio` of that row —
`id`, `username`, `email`, `password` and `deletedAt` are those of the
stored row — each of the three optional dto fields overwrites the
stored value exactly when it is truthy and retains the previously
stored value when absent or falsy, and every row with a different id is
still in the table unchanged. -/
theorem c10_update_frame (st : Store) (id : Nat) (dto : UpdateUserDto) (user : UserEntity)
    (hfind : st.users.find? (fun v => v.id == id && v.deletedAt.isNone) = some user) :
    ∃ u3 : UserEntity,
      UserService.update st id dto = (UserService.saveUser st u3, Except.ok u3) ∧
      u3.id = user.id ∧ u3.username = user.username ∧ u3.email = user.email ∧
      u3.password = user.password ∧ u3.deletedAt = user.deletedAt ∧
      (truthy dto.displayName = false → u3.displayName = user.displayName) ∧
      (truthy dto.profileImage = false → u3.profileImage = user.profileImage) ∧
      (truthy dto.bio = false → u3.bio = user.bio) ∧
      (truthy dto.displayName = true → u3.displayName = dto.displayName) ∧
      (truthy dto.profileImage = true → u3.profileImage = dto.profileImage) ∧
      (truthy dto.bio = true → u3.bio = dto.bio) ∧
      (∀ v ∈ st.users, v.id ≠ user.id → v ∈ (UserService.update st id dto).1.users) := by
  have hupd : UserService.update st id dto
      = (UserService.saveUser st (UserService.applyUpdate user dto),
         Except.ok (UserService.applyUpdate user dto)) := by
    simp only [UserService.update, hfind]
  have hidp : (UserService.applyUpdate user dto).id = user.id := by
    cases hd : truthy dto.displayName <;> cases hp : truthy dto.profileImage <;>
      cases hb : truthy dto.bio <;> simp [UserService.applyUpdate, hd, hp, hb]
  have hun : (UserService.applyUpdate user dto).username = user.username := by
    cases hd : truthy dto.displayName <;> cases hp : truthy dto.profileImage <;>
      cases hb : truthy dto.bio <;> simp [UserService.applyUpdate, hd, hp, hb]
  have hem : (UserService.applyUpdate user dto).email = user.email := by
    cases hd : truthy dto.displayName <;> cases hp : truthy dto.profileImage <;>
      cases hb : truthy dto.bio <;> simp [UserService.applyUpdate, hd, hp, hb]
  have hpw : (UserService.applyUpdate user dto).password = user.password := by
    cases hd : truthy dto.displayName <;> cases hp : truthy dto.profileImage <;>
      cases hb : truthy dto.bio <;> simp [UserService.applyUpdate, hd, hp, hb]
  have hda : (UserService.applyUpdate user dto).deletedAt = user.deletedAt := by
    cases hd : truthy dto.displayName <;> cases hp : truthy dto.profileImage <;>
      cases hb : truthy dto.bio <;> simp [UserService.applyUpdate, hd, hp, hb]
  have hdn : ∀ b, truthy dto.displayName = b →
      (UserService.applyUpdate user dto).displayName
        = (if b then dto.displayName else user.displayName) := by
    intro b hd
    cases b <;> cases hp : truthy dto.profileImage <;> cases hb : truthy dto.bio <;>
      simp [UserService.applyUpdate, hd, hp, hb]
  have hpi : ∀ b, truthy dto.profileImage = b →
      (UserService.applyUpdate user dto).profileImage
        = (if b then dto.profileImage else user.profileImage) := by
    intro b hp
    cases b <;> cases hd : truthy dto.displayName <;> cases hb : truthy dto.bio <;>
      simp [UserService.applyUpdate, hd, hp, hb]
  have hbi : ∀ b, truthy dto.bio = b →
      (UserService.applyUpdate user dto).bio
        = (if b then dto.bio else user.bio) := by
    intro b hb
    cases b <;> cases hd : truthy dto.displayName <;> cases hp : truthy dto.profileImage <;>
      simp [UserService.applyUpdate, hd, hp, hb]
  have hmem : ∀ v ∈ st.users, v.id ≠ user.id → v ∈ (UserService.update st id dto).1.users := by
    intro v hv hne
    rw [hupd]
    exact saveUser_keeps_other_rows st _ v hv (by rw [hidp]; exact hne)
  exact ⟨UserService.applyUpdate user dto, hupd, hidp, hun, hem, hpw, hda,
         fun h => by rw [hdn false h]; simp, fun h => by rw [hpi false h]; simp,
         fun h => by rw [hbi false h]; simp, fun h => by rw [hdn true h]; simp,
         fun h => by rw [hpi true h]; simp, fun h => by rw [hbi true h]; simp,
         hmem⟩

/-- C10 witness: updating bob with a truthy displayName, an absent
profileImage and a falsy (empty-string) bio changes only displayName;
username, profileImage, bio and the tombstone keep their stored
values. -/
theorem c10_update_frame_witness :
    ∃ u3 : UserEntity,
      UserService.update stAB 2 { displayName := some "Bobby", profileImage := none, bio := some "" }
        = (UserService.saveUser stAB u3, Except.ok u3) ∧
      u3.username = "bob" ∧ u3.displayName = some "Bobby" ∧ u3.profileImage = none ∧
      u3.bio = none ∧ u3.deletedAt = none := by
  obtain ⟨u3, h1, hid, hun, hem, hpw, hda, hdn0, hpi0, hb0, hdn1, hpi1, hb1, hmem⟩ :=
    c10_update_frame stAB 2 { displayName := some "Bobby", profileImage := none, bio := some "" }
      { id := 2, username := "bob", email := "b@x.com", password := "h2",
        displayName := none, profileImage := none, bio := none, deletedAt := none } rfl
  exact ⟨u3, h1, hun, by rw [hdn1 (by decide)], by rw [hpi0 (by decide)],
         by rw [hb0 (by decide)], hda⟩

/-- When a map only ever changes fields the filter does not look at,
filtering after mapping is mapping after filtering. -/
theorem filter_map_comm {α : Type} (g : α → α) (p : α → Bool)
    (h : ∀ w, p (g w) = p w) :
    ∀ l : List α, (l.map g).filter p = (l.filter p).map g := by
  intro l
  induction l with
  | nil => rfl
  | cons hd tl ih =>
    cases hpc : p hd <;> simp [List.filter_cons, h hd, hpc, ih]


/-- C5: the vote-cast operation keeps the at-most-one-row-per-(voter,
target) invariant for every pair, and voting twice on the same target —
the second time with a different direction — leaves exactly one vote
row for the pair, whose direction is the one of the latest call (the
direction is overwritten, never accumulated and never a second row;
the freshness hypothesis on `nextId` is the store's auto-increment
guarantee). -/
theorem c5_vote_single_row (votes : List CommentVoteEntity) (nextId u c : Nat) (d d1 d2 : Int) :
    (∀ u' c', (voteRows votes u' c').length ≤ 1 →
      (voteRows (castCommentVote votes nextId u c d).1 u' c').length ≤ 1) ∧
    (votes.find? (fun v => v.userId == u && v.commentId == c) = none →
      (∀ v ∈ votes, v.id ≠ nextId) →
      voteRows (castCommentVote (castCommentVote votes nextId u c d1).1
          (castCommentVote votes nextId u c d1).2 u c d2).1 u c
        = [{ id := nextId, direction := d2, userId := u, commentId := c }]) := by
  constructor
  · intro u' c' hle
    cases hfind : votes.find? (fun v => v.userId == u && v.commentId == c) with
    | some v =>
      have hres : (castCommentVote votes nextId u c d).1
          = votes.map (fun w => if w.id == v.id then { w with direction := d } else w) := by
        simp only [castCommentVote, hfind]
      have hginv : ∀ w : CommentVoteEntity,
          (fun x : CommentVoteEntity => x.userId == u' && x.commentId == c')
            ((fun w => if w.id == v.id then { w with direction := d } else w) w)
          = (fun x : CommentVoteEntity => x.userId == u' && x.commentId == c') w := by
        intro w
        by_cases hw : (w.id == v.id) = true <;> simp [hw]
      rw [hres]
      unfold voteRows at hle ⊢
      rw [filter_map_comm _ _ hginv votes, List.length_map]
      exact hle
    | none =>
      have hres : (castCommentVote votes nextId u c d).1
          = votes ++ [{ id := nextId, direction := d, userId := u, commentId := c }] := by
        simp only [castCommentVote, hfind]
      rw [hres]
      unfold voteRows at hle ⊢
      rw [List.filter_append]
      by_cases hm : (u == u' && c == c') = true
      · obtain ⟨hu', hc'⟩ : u = u' ∧ c = c' := by simpa using hm
        subst hu'
        subst hc'
        have hnil : votes.filter (fun x => x.userId == u && x.commentId == c) = [] := by
          refine List.filter_eq_nil_iff.mpr ?_
          intro a ha
          exact List.find?_eq_none.mp hfind a ha
        simp [hnil]
      · have hmf : (u == u' && c == c') = false := by
          simpa using hm
        simpa [hmf] using hle
  · intro hnone hfresh
    have h1 : castCommentVote votes nextId u c d1
        = (votes ++ [{ id := nextId, direction := d1, userId := u, commentId := c }], nextId + 1) := by
      simp only [castCommentVote, hnone]
    have hfind2 : (votes ++ [({ id := nextId, direction := d1, userId := u, commentId := c } : CommentVoteEntity)]).find?
        (fun v => v.userId == u && v.commentId == c)
        = some { id := nextId, direction := d1, userId := u, commentId := c } := by
      rw [List.find?_append, hnone]
      simp [List.find?]
    have hginv2 : ∀ w : CommentVoteEntity,
        (fun x : CommentVoteEntity => x.userId == u && x.commentId == c)
          ((fun w => if w.id == nextId then { w with direction := d2 } else w) w)
        = (fun x : CommentVoteEntity => x.userId == u && x.commentId == c) w := by
      intro w
      by_cases hw : (w.id == nextId) = true <;> simp [hw]
    have hnil : votes.filter (fun x => x.userId == u && x.commentId == c) = [] := by
      refine List.filter_eq_nil_iff.mpr ?_
      intro a ha
      exact List.find?_eq_none.mp hnone a ha
    rw [h1]
    have h2 : castCommentVote (votes ++ [({ id := nextId, direction := d1, userId := u, commentId := c } : CommentVoteEntity)]) (nextId + 1) u c d2
        = ((votes ++ [({ id := nextId, direction := d1, userId := u, commentId := c } : CommentVoteEntity)]).map
            (fun w : CommentVoteEntity => if w.id == nextId then { w with direction := d2 } else w), nextId + 1) := by
      simp only [castCommentVote, hfind2]
    rw [h2]
    unfold voteRows
    rw [List.map_append, List.filter_append, filter_map_comm _ _ hginv2 votes, hnil]
    simp

/-- C5 witness: from an empty vote table, voter 1 votes +1 on comment 2
and then votes -1; there is exactly one row for the pair and its
direction is -1. -/
theorem c5_vote_single_row_witness :
    (voteRows (castCommentVote [] 1 1 2 1).1 1 2).length ≤ 1 ∧
    voteRows (castCommentVote (castCommentVote [] 1 1 2 1).1
        (castCommentVote [] 1 1 2 1).2 1 2 (-1)).1 1 2
      = [{ id := 1, direction := -1, userId := 1, commentId := 2 }] := by
  exact ⟨(c5_vote_single_row [] 1 1 2 1 1 (-1)).1 1 2 (by decide),
         (c5_vote_single_row [] 1 1 2 1 1 (-1)).2 rfl (by decide)⟩

/-- C6 counterexample: a registration whose username `alice` and email
`a@x.com` are fresh in the empty store, but whose dto carries a profile
image while no bucket name is configured, fails with the internal
error and creates no row — so "for every request with fresh username
and email, register creates exactly one new row" is false as stated. -/
theorem c6_register_fresh_no_row :
    (stEmpty.users.find?
      (fun v => v.username == "alice" || v.email == "a@x.com") = none) ∧
    UserService.register { s3BucketName := none } stEmpty
      { username := "alice", email := "a@x.com", password := "p1",
        displayName := none, profileImage := some "data:image/png;base64,AAAA", bio := none }
      = (stEmpty, Except.error (.internalError "")) ∧
    (UserService.register { s3BucketName := none } stEmpty
      { username := "alice", email := "a@x.com", password := "p1",
        displayName := none, profileImage := some "data:image/png;base64,AAAA", bio := none }).1.users.length
      = 0 := by
  refine ⟨rfl, rfl, rfl⟩

/-- C6 (amended): registering with a username or email that any stored
row already carries fails with the ValidationFailed bad-request error
and leaves the store unchanged; with fresh username and email, register
creates exactly one new row carrying them — provided the request has no
truthy profile image or the bucket name is configured (otherwise the
upload fails first and no row is created). -/
theorem c6_register_unique (cfg : Config) (st : Store) (dto : RegisterUserDto) :
    (∀ w, st.users.find? (fun v => v.username == dto.username || v.email == dto.email) = some w →
      UserService.register cfg st dto
        = (st, Except.error (.badRequest "Email or Username is already taken" "Validation failed"))) ∧
    (st.users.find? (fun v => v.username == dto.username || v.email == dto.email) = none →
      (truthy dto.profileImage = false ∨ cfg.s3BucketName.isSome) →
      ∃ nu : UserEntity,
        UserService.register cfg st dto
          = ({ st with users := st.users ++ [nu], nextUserId := st.nextUserId + 1 }, Except.ok nu) ∧
        nu.username = dto.username ∧ nu.email = dto.email) := by
  constructor
  · intro w hw
    simp only [UserService.register, hw]
  · intro hnone himg
    have hrow : ∃ row : UserEntity, UserService.registerRow cfg dto = Except.ok row ∧
        row.username = dto.username ∧ row.email = dto.email := by
      cases hpi : truthy dto.profileImage with
      | false =>
        cases hd : truthy dto.displayName <;> cases hb : truthy dto.bio
        · exact ⟨{ id := 0, username := dto.username, email := dto.email,
                   password := argonHash dto.password, displayName := none,
                   profileImage := none, bio := none, deletedAt := none },
                 by simp [UserService.registerRow, hpi, hd, hb], rfl, rfl⟩
        · exact ⟨{ id := 0, username := dto.username, email := dto.email,
                   password := argonHash dto.password, displayName := none,
                   profileImage := none, bio := dto.bio, deletedAt := none },
                 by simp [UserService.registerRow, hpi, hd, hb], rfl, rfl⟩
        · exact ⟨{ id := 0, username := dto.username, email := dto.email,
                   password := argonHash dto.password, displayName := dto.displayName,
                   profileImage := none, bio := none, deletedAt := none },
                 by simp [UserService.registerRow, hpi, hd, hb], rfl, rfl⟩
        · exact ⟨{ id := 0, username := dto.username, email := dto.email,
                   password := argonHash dto.password, displayName := dto.displayName,
                   profileImage := none, bio := dto.bio, deletedAt := none },
                 by simp [UserService.registerRow, hpi, hd, hb], rfl, rfl⟩
      | true =>
        have hb' : ∃ b, cfg.s3BucketName = some b := by
          rcases himg with h | h
          · rw [hpi] at h
            exact absurd h (by simp)
          · exact Option.isSome_iff_exists.mp h
        obtain ⟨b, hbkt⟩ := hb'
        cases hd : truthy dto.displayName <;> cases hb : truthy dto.bio
        · exact ⟨{ id := 0, username := dto.username, email := dto.email,
                   password := argonHash dto.password, displayName := none,
                   profileImage := some ("pictures/user/" ++ dto.username ++ ".png"),
                   bio := none, deletedAt := none },
                 by simp [UserService.registerRow, UserService.uploadProfileImage,
                   UserService.awsS3Upload, hpi, hd, hb, hbkt], rfl, rfl⟩
        · exact ⟨{ id := 0, username := dto.username, email := dto.email,
                   password := argonHash dto.password, displayName := none,
                   profileImage := some ("pictures/user/" ++ dto.username ++ ".png"),
                   bio := dto.bio, deletedAt := none },
                 by simp [UserService.registerRow, UserService.uploadProfileImage,
                   UserService.awsS3Upload, hpi, hd, hb, hbkt], rfl, rfl⟩
        · exact ⟨{ id := 0, username := dto.username, email := dto.email,
                   password := argonHash dto.password, displayName := dto.displayName,
                   profileImage := some ("pictures/user/" ++ dto.username ++ ".png"),
                   bio := none, deletedAt := none },
                 by simp [UserService.registerRow, UserService.uploadProfileImage,
                   UserService.awsS3Upload, hpi, hd, hb, hbkt], rfl, rfl⟩
        · exact ⟨{ id := 0, username := dto.username, email := dto.email,
                   password := argonHash dto.password, displayName := dto.displayName,
                   profileImage := some ("pictures/user/" ++ dto.username ++ ".png"),
                   bio := dto.bio, deletedAt := none },
                 by simp [UserService.registerRow, UserService.uploadProfileImage,
                   UserService.awsS3Upload, hpi, hd, hb, hbkt], rfl, rfl⟩
    obtain ⟨row, hrowEq, hu, he⟩ := hrow
    refine ⟨{ row with id := st.nextUserId }, ?_, hu, he⟩
    simp only [UserService.register, hnone, hrowEq]

/-- C6 witness: registering a second "alice" fails ValidationFailed and
leaves the store unchanged; registering a fresh "carol" (no profile
image) appends exactly one row carrying her username and email. -/
theorem c6_register_unique_witness :
    UserService.register { s3BucketName := some "b" } stAB
      { username := "alice", email := "new@x.com", password := "p",
        displayName := none, profileImage := none, bio := none }
      = (stAB, Except.error (.badRequest "Email or Username is already taken" "Validation failed")) ∧
    (∃ nu : UserEntity,
      UserService.register { s3BucketName := some "b" } stAB
        { username := "carol", email := "c@x.com", password := "p",
          displayName := none, profileImage := none, bio := none }
        = ({ stAB with users := stAB.users ++ [nu], nextUserId := stAB.nextUserId + 1 }, Except.ok nu) ∧
      nu.username = "carol" ∧ nu.email = "c@x.com") := by
  exact ⟨(c6_register_unique { s3BucketName := some "b" } stAB
            { username := "alice", email := "new@x.com", password := "p",
              displayName := none, profileImage := none, bio := none }).1 _ rfl,
         (c6_register_unique { s3BucketName := some "b" } stAB
            { username := "carol", email := "c@x.com", password := "p",
              displayName := none, profileImage := none, bio := none }).2 rfl (Or.inl rfl)⟩
